import Mathlib

/-!
Verification of the core of the vgQrGen repository: the spreadsheet
column-detection / credential-extraction engine (`ExcelManager` in
`src/vgQRGen/core/excel_manager.py`, with the legacy copy in
`src/qr_generator/core/excel_manager.py`), the column-letter utilities
(`src/vgQRGen/utils/excel_utils.py`) and the QR/image pipeline
(`QRManager` in `src/vgQRGen/core/qr_manager.py`), shallowly embedded
as executable Lean definitions.

Modelling conventions:
* A spreadsheet cell (as seen through `openpyxl` with `values_only=True`)
  is an `Option String`: `none` is an empty cell, `some s` a cell whose
  Python `str()` rendering is `s`.  Python truthiness of a cell value is
  `false` for `none` and for `some ""`.
* Python `str.strip` / `str.lower` / `str.upper` are modelled by
  `pyStrip` / `pyLower` / `pyUpper` (character-list based, so that the
  kernel can evaluate them; ASCII case folding).
* Python row indexing `row[i]` is modelled by `List.getD row i none`;
  `openpyxl` pads every row of a sheet to the sheet's column count, so
  in-range access is the only case exercised by the program.
-/

set_option maxRecDepth 100000

namespace VgQrGen

/-- Python `str()` applied to a cell value: `str(None)` renders as the
four-character string `"None"`. -/
def pyStr : Option String → String
  | none => "None"
  | some s => s

/-- Python truthiness of a cell value: `None` and `""` are falsy. -/
def truthy : Option String → Bool
  | none => false
  | some s => s != ""

/-- Python `str.strip` on a character list: drop whitespace from both
ends. -/
def pyStripChars (cs : List Char) : List Char :=
  ((cs.dropWhile Char.isWhitespace).reverse.dropWhile Char.isWhitespace).reverse

/-- Python `str.strip`, modelled over the string's characters (ASCII
whitespace; kernel-evaluable, unlike `String.trim`). -/
def pyStrip (s : String) : String := String.mk (pyStripChars s.toList)

/-- Python `str.upper` (ASCII case folding). -/
def pyUpper (s : String) : String := String.mk (s.toList.map Char.toUpper)

/-- Python `str.lower` (ASCII case folding). -/
def pyLower (s : String) : String := String.mk (s.toList.map Char.toLower)

/-! ## `src/vgQRGen/utils/excel_utils.py` -/

/-- `excel_column_to_index`: upper-case and trim the letters, then fold
`(ord(char) - ord('A') + 1) * 26 ** i` over the reversed characters and
subtract one.  The Python function returns a plain `int` (it yields `-1`
on the empty string), so the result is an `Int`. -/
def excel_column_to_index (column_letter : String) : Int :=
  let s := pyStrip (pyUpper column_letter)
  (s.toList.reverse.enum.foldl
    (fun acc p => acc + ((p.2.toNat : Int) - 65 + 1) * 26 ^ p.1) 0) - 1

/-- The `while index > 0` loop of `index_to_excel_column`:
`index, remainder = divmod(index - 1, 26); result = chr(65 + remainder) + result`. -/
def index_to_excel_column_loop (index : Nat) (result : String) : String :=
  if _h : index = 0 then result
  else
    index_to_excel_column_loop ((index - 1) / 26)
      (String.mk [Char.ofNat (65 + (index - 1) % 26)] ++ result)
termination_by index
decreasing_by
  have h1 : (index - 1) / 26 ≤ index - 1 := Nat.div_le_self _ _
  omega

/-- `index_to_excel_column`: increment the zero-based index, then run the
`divmod` loop. -/
def index_to_excel_column (index : Nat) : String :=
  index_to_excel_column_loop (index + 1) ""

/-- A structurally recursive (hence kernel-evaluable) rendering of
`index_to_excel_column_loop`, with an explicit fuel bound on the number
of iterations; `index_to_excel_column_fuel_eq` shows it agrees with the
loop whenever the fuel covers the start index. -/
def index_to_excel_column_fuel : Nat → Nat → String → String
  | _, 0, result => result
  | 0, _ + 1, result => result
  | fuel + 1, index + 1, result =>
    index_to_excel_column_fuel fuel (index / 26)
      (String.mk [Char.ofNat (65 + index % 26)] ++ result)

theorem index_to_excel_column_fuel_eq :
    ∀ (fuel index : Nat) (result : String), index ≤ fuel →
      index_to_excel_column_fuel fuel index result = index_to_excel_column_loop index result := by
  intro fuel
  induction fuel with
  | zero =>
    intro index result h
    have hz : index = 0 := Nat.le_zero.mp h
    subst hz
    rw [index_to_excel_column_loop]
    rfl
  | succ n ih =>
    intro index result h
    match index with
    | 0 =>
      rw [index_to_excel_column_loop]
      rfl
    | m + 1 =>
      rw [index_to_excel_column_loop]
      simp only [index_to_excel_column_fuel, Nat.add_sub_cancel]
      exact ih (m / 26) _ (Nat.le_trans (Nat.div_le_self m 26) (Nat.le_of_succ_le_succ h))

theorem index_to_excel_column_eq_fuel (n : Nat) :
    index_to_excel_column n = index_to_excel_column_fuel (n + 1) (n + 1) "" :=
  (index_to_excel_column_fuel_eq (n + 1) (n + 1) "" (Nat.le_refl _)).symm

/-- C7: for every integer `i` in `[0, 701]`,
`excel_column_to_index (index_to_excel_column i) = i`, and the
conversion agrees with the spreadsheet convention
`A→0, Z→25, AA→26, AB→27` in both directions. -/
theorem excel_column_round_trip :
    (∀ i : Fin 702, excel_column_to_index (index_to_excel_column i.val) = (i.val : Int)) ∧
    index_to_excel_column 0 = "A" ∧ index_to_excel_column 25 = "Z" ∧
    index_to_excel_column 26 = "AA" ∧ index_to_excel_column 27 = "AB" ∧
    excel_column_to_index "A" = 0 ∧ excel_column_to_index "Z" = 25 ∧
    excel_column_to_index "AA" = 26 ∧ excel_column_to_index "AB" = 27 := by
  simp only [index_to_excel_column_eq_fuel]
  refine ⟨?_, ?_, ?_, ?_, ?_, ?_, ?_, ?_, ?_⟩ <;> decide

/-! ## `src/vgQRGen/core/qr_manager.py`: `WiFiCredentials` -/

/-- The `WiFiCredentials` dataclass.  The `encryption` field is annotated
`str` in the source but callers pass `None` through it, so it is modelled
as `Option String`; `password` and `property_type` are `Optional[str]`. -/
structure WiFiCredentials where
  ssid : String
  password : Option String
  encryption : Option String
  property_type : Option String
deriving DecidableEq

/-- The argument list of the dataclass-generated `WiFiCredentials.__init__`:
an outer `none` means the caller omitted that keyword argument, so the
field default applies (`password=None`, `encryption="WPA2"`,
`property_type=None`). -/
structure WiFiCredentialsArgs where
  ssid : String
  password : Option (Option String)
  encryption : Option (Option String)
  property_type : Option (Option String)

/-- The dataclass-generated constructor of `WiFiCredentials`, including
its field defaults (`encryption: str = "WPA2"`). -/
def WiFiCredentials.init (a : WiFiCredentialsArgs) : WiFiCredentials :=
  ⟨a.ssid, a.password.getD none, a.encryption.getD (some "WPA2"), a.property_type.getD none⟩

/-- C10: constructing a `WiFiCredentials` without an explicit
security/encryption argument yields a credential whose encryption is the
string `"WPA2"` — the record type itself supplies the default. -/
theorem wifi_credentials_default_encryption
    (ssid : String) (pw pt : Option (Option String)) :
    (WiFiCredentials.init ⟨ssid, pw, none, pt⟩).encryption = some "WPA2" := rfl

/-! ## `src/vgQRGen/core/qr_manager.py`: `generate_wifi_qr` payload -/

/-- The WiFi-payload escaping of the special characters `\ ; , "`
(each is preceded by a backslash). -/
def escape_wifi_char (c : Char) : List Char :=
  if c = '\\' ∨ c = ';' ∨ c = ',' ∨ c = '"' then ['\\', c] else [c]

/-- Backslash-escaping of SSID/password text for the WiFi payload. -/
def escape_wifi (s : String) : String :=
  String.mk (s.toList.flatMap escape_wifi_char)

/-- Modelled from the spec: `segno.helpers.make_wifi_data` is an external
library dependency (the `segno` package), not part of `src/`.  The spec
describes the payload as the standard
`WIFI:S:<ssid>;T:<security>;P:<password>;;` convention, with `\ ; , "`
backslash-escaped in SSID and password.  Per the library's documented
interface the `T:` field is omitted when the security argument is falsy
(`None` or empty), the literal value `"nopass"` is emitted verbatim while
any other security value is upper-cased, and the `P:` field is omitted
when the password argument is falsy; security and password are
independent arguments. -/
def make_wifi_data (ssid : String) (password : Option String)
    (security : Option String) : String :=
  "WIFI:S:" ++ escape_wifi ssid ++ ";"
    ++ (match security with
        | some sec =>
          if sec = "" then ""
          else "T:" ++ (if sec = "nopass" then sec else pyUpper sec) ++ ";"
        | none => "")
    ++ (match password with
        | some p => if p = "" then "" else "P:" ++ escape_wifi p ++ ";"
        | none => "")
    ++ ";"

/-- The payload construction inside `QRManager.generate_wifi_qr`
(`src/vgQRGen/core/qr_manager.py`): the security argument passed to the
library is the credential's encryption value, except that the value
`"nopass"` is replaced by `None`; the password is passed through
unconditionally. -/
def generate_wifi_payload (c : WiFiCredentials) : String :=
  make_wifi_data c.ssid c.password
    (if c.encryption = some "nopass" then none else c.encryption)

/-- C3 counterexample: for the credential
`{ssid := "Guest", password := "secret", security := "OPEN"}` the
generated payload both carries `T:OPEN` and still contains the full
password field `P:secret;` — the password is not omitted for an
open-security value, contrary to the claim. -/
theorem wifi_payload_open_security_cex :
    generate_wifi_payload ⟨"Guest", some "secret", some "OPEN", none⟩
        = "WIFI:S:Guest;T:OPEN;P:secret;;" ∧
      ("P:secret;").toList <:+: (generate_wifi_payload
        ⟨"Guest", some "secret", some "OPEN", none⟩).toList := by
  constructor
  · rfl
  · decide

/-- C3 (amended): the only open-network marker `generate_wifi_qr`
handles is the value `"nopass"`, for which it passes `None` as the
security argument, so the payload carries no `T:` field; the password
field is emitted whenever a non-empty password is present, regardless of
the security value. -/
theorem wifi_payload_nopass_spec (c : WiFiCredentials) (pw : String)
    (h : c.encryption = some "nopass") (hp : c.password = some pw) (hpw : pw ≠ "") :
    generate_wifi_payload c = make_wifi_data c.ssid c.password none ∧
    ("P:" ++ escape_wifi pw ++ ";").toList <:+: (generate_wifi_payload c).toList := by
  have h1 : generate_wifi_payload c = make_wifi_data c.ssid c.password none := by
    rw [generate_wifi_payload, if_pos h]
  refine ⟨h1, ?_⟩
  rw [h1, make_wifi_data.eq_def, hp]
  simp only [if_neg hpw]
  refine ⟨("WIFI:S:" ++ escape_wifi c.ssid ++ ";" ++ "").toList, (";" : String).toList, ?_⟩
  simp only [String.toList, String.data_append, List.append_assoc]

/-- Witness for `wifi_payload_nopass_spec` at the concrete credential
`{ssid := "Guest", password := "p", security := "nopass"}`. -/
theorem wifi_payload_nopass_spec_witness :
    generate_wifi_payload ⟨"Guest", some "p", some "nopass", none⟩
        = make_wifi_data "Guest" (some "p") none ∧
      ("P:" ++ escape_wifi "p" ++ ";").toList <:+: (generate_wifi_payload
        ⟨"Guest", some "p", some "nopass", none⟩).toList :=
  wifi_payload_nopass_spec ⟨"Guest", some "p", some "nopass", none⟩ "p"
    rfl rfl (by decide)

/-! ## `src/vgQRGen/core/excel_manager.py`: column detection -/

/-- The `ExcelColumns` dataclass: zero-based column indices, with
`room` and `ssid` required and the remaining roles optional. -/
structure ExcelColumns where
  room : Nat
  ssid : Nat
  password : Option Nat
  encryption : Option Nat
  property_type : Option Nat
deriving DecidableEq

/-- `COLUMN_KEYWORDS['room']`. -/
def room_keywords : List String :=
  ["room", "habitacion", "habitación", "number", "número", "hab", "cuarto", "villa"]

/-- `COLUMN_KEYWORDS['ssid']`. -/
def ssid_keywords : List String :=
  ["ssid", "network", "red", "wifi", "nombre", "name", "net"]

/-- `COLUMN_KEYWORDS['password']`. -/
def password_keywords : List String :=
  ["password", "contraseña", "pass", "key", "clave", "pwd", "contrasena"]

/-- `COLUMN_KEYWORDS['encryption']`. -/
def encryption_keywords : List String :=
  ["security", "encryption", "seguridad", "encriptación", "type", "tipo", "encriptacion"]

/-- `COLUMN_KEYWORDS['property']`. -/
def property_keywords : List String :=
  ["property", "propiedad", "hotel", "region", "zona", "lugar", "site"]

/-- The mutable `column_indices` dictionary of `_detect_columns`, one
optional index per role, in the dictionary's insertion order
(`room, ssid, password, encryption, property`). -/
structure DetectState where
  room : Option Nat
  ssid : Option Nat
  password : Option Nat
  encryption : Option Nat
  property : Option Nat
deriving DecidableEq

/-- Whether `needle` is a leading segment of `hay`. -/
def substr_at (hay needle : List Char) : Bool :=
  match hay, needle with
  | _, [] => true
  | [], _ :: _ => false
  | a :: as, b :: bs => a == b && substr_at as bs

/-- Whether `needle` occurs contiguously anywhere inside `hay`. -/
def has_substr (hay needle : List Char) : Bool :=
  match hay with
  | [] => needle.isEmpty
  | _ :: t => substr_at hay needle || has_substr t needle

/-- Python `any(keyword in cell_value for keyword in keywords)`:
some keyword occurs as a substring of the cell text. -/
def contains_kw (v : String) (kws : List String) : Bool :=
  kws.any (fun k => has_substr v.toList k.toList)

/-- The first (exact-match) pass of `_detect_columns` for one header
cell: the first role, in dictionary order, whose keyword list contains
the normalized cell text is assigned the cell's index — overwriting any
earlier assignment, since this pass never checks whether the role is
already assigned. -/
def exact_pass (v : String) (idx : Nat) (st : DetectState) : DetectState :=
  if v ∈ room_keywords then ⟨some idx, st.ssid, st.password, st.encryption, st.property⟩
  else if v ∈ ssid_keywords then ⟨st.room, some idx, st.password, st.encryption, st.property⟩
  else if v ∈ password_keywords then ⟨st.room, st.ssid, some idx, st.encryption, st.property⟩
  else if v ∈ encryption_keywords then ⟨st.room, st.ssid, st.password, some idx, st.property⟩
  else if v ∈ property_keywords then ⟨st.room, st.ssid, st.password, st.encryption, some idx⟩
  else st

/-- The second (substring-containment) pass of `_detect_columns` for one
header cell: the first still-unassigned role, in dictionary order, one
of whose keywords occurs inside the normalized cell text is assigned the
cell's index.  A role that is already assigned is skipped (`continue`). -/
def fuzzy_pass (v : String) (idx : Nat) (st : DetectState) : DetectState :=
  if st.room.isNone && contains_kw v room_keywords then
    ⟨some idx, st.ssid, st.password, st.encryption, st.property⟩
  else if st.ssid.isNone && contains_kw v ssid_keywords then
    ⟨st.room, some idx, st.password, st.encryption, st.property⟩
  else if st.password.isNone && contains_kw v password_keywords then
    ⟨st.room, st.ssid, some idx, st.encryption, st.property⟩
  else if st.encryption.isNone && contains_kw v encryption_keywords then
    ⟨st.room, st.ssid, st.password, some idx, st.property⟩
  else if st.property.isNone && contains_kw v property_keywords then
    ⟨st.room, st.ssid, st.password, st.encryption, some idx⟩
  else st

/-- `all(v is not None for v in column_indices.values())`. -/
def all_assigned (st : DetectState) : Bool :=
  st.room.isSome && st.ssid.isSome && st.password.isSome
    && st.encryption.isSome && st.property.isSome

/-- The body of the header-cell loop of `_detect_columns`: a falsy cell
is skipped; otherwise the cell text is lower-cased and stripped, the
exact pass runs, and — unless every role is already assigned — the
substring pass runs as well. -/
def process_cell (st : DetectState) (idx : Nat) (cell : Option String) : DetectState :=
  match cell with
  | none => st
  | some raw =>
    if raw = "" then st
    else
      let v := pyStrip (pyLower raw)
      let st1 := exact_pass v idx st
      if all_assigned st1 then st1 else fuzzy_pass v idx st1

/-- The header-cell loop of `_detect_columns` (`enumerate(header_row)`
starting at index `idx`). -/
def detect_loop (st : DetectState) (idx : Nat) : List (Option String) → DetectState
  | [] => st
  | c :: rest => detect_loop (process_cell st idx c) (idx + 1) rest

/-- `_detect_columns`: run the loop over the header row starting from an
all-`None` dictionary; succeed only if both `room` and `ssid` were
assigned. -/
def detect_columns (header : List (Option String)) : Option ExcelColumns :=
  let st := detect_loop ⟨none, none, none, none, none⟩ 0 header
  match st.room, st.ssid with
  | some r, some s => some ⟨r, s, st.password, st.encryption, st.property⟩
  | _, _ => none

/-- Whether a header cell is truthy and its normalized text is an exact
member of the given keyword list. -/
def is_exact (kws : List String) : Option String → Bool
  | none => false
  | some raw => raw != "" && decide (pyStrip (pyLower raw) ∈ kws)

/-- C1 counterexample: in the header row `["room", "cuarto", "ssid"]`
the cell `"room"` at index 0 is an isolated exact `room` token, yet
`_detect_columns` assigns the `room` role to index 1, because the exact
pass overwrites the earlier assignment when `"cuarto"` (another exact
`room` keyword) is seen later. -/
theorem detect_columns_overwrite_cex :
    (detect_columns [some "room", some "cuarto", some "ssid"]).map
        (fun m => m.room) = some 1 ∧
      ¬ (detect_columns [some "room", some "cuarto", some "ssid"]).map
        (fun m => m.room) = some 0 := by
  constructor
  · decide
  · decide

theorem ssid_kw_not_room : ∀ v ∈ ssid_keywords, v ∉ room_keywords := by decide

theorem exact_pass_room_of_mem (v : String) (idx : Nat) (st : DetectState)
    (h : v ∈ room_keywords) : (exact_pass v idx st).room = some idx := by
  simp [exact_pass, h]

theorem exact_pass_room_of_not_mem (v : String) (idx : Nat) (st : DetectState)
    (h : v ∉ room_keywords) : (exact_pass v idx st).room = st.room := by
  rw [exact_pass]
  repeat' split
  all_goals first | rfl | exact absurd ‹v ∈ room_keywords› h

theorem exact_pass_ssid_of_mem (v : String) (idx : Nat) (st : DetectState)
    (h : v ∈ ssid_keywords) : (exact_pass v idx st).ssid = some idx := by
  rw [exact_pass, if_neg (ssid_kw_not_room v h), if_pos h]

theorem exact_pass_ssid_of_not_mem (v : String) (idx : Nat) (st : DetectState)
    (h : v ∉ ssid_keywords) : (exact_pass v idx st).ssid = st.ssid := by
  rw [exact_pass]
  repeat' split
  all_goals rfl

theorem fuzzy_pass_room_of_isSome (v : String) (idx : Nat) (st : DetectState)
    (h : st.room.isSome) : (fuzzy_pass v idx st).room = st.room := by
  obtain ⟨r, hr⟩ := Option.isSome_iff_exists.mp h
  simp only [fuzzy_pass, hr]
  repeat' split
  all_goals first | rfl | simp_all

theorem fuzzy_pass_ssid_of_isSome (v : String) (idx : Nat) (st : DetectState)
    (h : st.ssid.isSome) : (fuzzy_pass v idx st).ssid = st.ssid := by
  obtain ⟨s, hs⟩ := Option.isSome_iff_exists.mp h
  simp only [fuzzy_pass, hs]
  repeat' split
  all_goals first | rfl | simp_all

theorem process_cell_room_of_exact (st : DetectState) (idx : Nat) (c : Option String)
    (h : is_exact room_keywords c = true) : (process_cell st idx c).room = some idx := by
  match c with
  | none => exact absurd h (by simp [is_exact])
  | some raw =>
    simp only [is_exact, Bool.and_eq_true, bne_iff_ne, ne_eq, decide_eq_true_eq] at h
    obtain ⟨hraw, hmem⟩ := h
    simp only [process_cell, if_neg hraw]
    have h1 : (exact_pass (pyStrip (pyLower raw)) idx st).room = some idx :=
      exact_pass_room_of_mem _ _ _ hmem
    cases hA : all_assigned (exact_pass (pyStrip (pyLower raw)) idx st) with
    | true => simpa [hA] using h1
    | false =>
      simp only [hA, Bool.false_eq_true, if_false]
      rw [fuzzy_pass_room_of_isSome _ _ _ (by rw [h1]; rfl)]
      exact h1

theorem process_cell_room_of_not_exact (st : DetectState) (idx : Nat) (c : Option String)
    (hs : st.room.isSome) (h : is_exact room_keywords c = false) :
    (process_cell st idx c).room = st.room := by
  match c with
  | none => rfl
  | some raw =>
    by_cases hraw : raw = ""
    · simp [process_cell, hraw]
    · simp only [is_exact, Bool.and_eq_false_iff, bne_eq_false_iff_eq,
        decide_eq_false_iff_not] at h
      have hmem : pyStrip (pyLower raw) ∉ room_keywords := by
        rcases h with h | h
        · exact absurd h hraw
        · exact h
      simp only [process_cell, if_neg hraw]
      have h1 : (exact_pass (pyStrip (pyLower raw)) idx st).room = st.room :=
        exact_pass_room_of_not_mem _ _ _ hmem
      cases hA : all_assigned (exact_pass (pyStrip (pyLower raw)) idx st) with
      | true => simpa [hA] using h1
      | false =>
        simp only [hA, Bool.false_eq_true, if_false]
        rw [fuzzy_pass_room_of_isSome _ _ _ (by rw [h1]; exact hs)]
        exact h1

theorem process_cell_ssid_of_exact (st : DetectState) (idx : Nat) (c : Option String)
    (h : is_exact ssid_keywords c = true) : (process_cell st idx c).ssid = some idx := by
  match c with
  | none => exact absurd h (by simp [is_exact])
  | some raw =>
    simp only [is_exact, Bool.and_eq_true, bne_iff_ne, ne_eq, decide_eq_true_eq] at h
    obtain ⟨hraw, hmem⟩ := h
    simp only [process_cell, if_neg hraw]
    have h1 : (exact_pass (pyStrip (pyLower raw)) idx st).ssid = some idx :=
      exact_pass_ssid_of_mem _ _ _ hmem
    cases hA : all_assigned (exact_pass (pyStrip (pyLower raw)) idx st) with
    | true => simpa [hA] using h1
    | false =>
      simp only [hA, Bool.false_eq_true, if_false]
      rw [fuzzy_pass_ssid_of_isSome _ _ _ (by rw [h1]; rfl)]
      exact h1

theorem process_cell_ssid_of_not_exact (st : DetectState) (idx : Nat) (c : Option String)
    (hs : st.ssid.isSome) (h : is_exact ssid_keywords c = false) :
    (process_cell st idx c).ssid = st.ssid := by
  match c with
  | none => rfl
  | some raw =>
    by_cases hraw : raw = ""
    · simp [process_cell, hraw]
    · simp only [is_exact, Bool.and_eq_false_iff, bne_eq_false_iff_eq,
        decide_eq_false_iff_not] at h
      have hmem : pyStrip (pyLower raw) ∉ ssid_keywords := by
        rcases h with h | h
        · exact absurd h hraw
        · exact h
      simp only [process_cell, if_neg hraw]
      have h1 : (exact_pass (pyStrip (pyLower raw)) idx st).ssid = st.ssid :=
        exact_pass_ssid_of_not_mem _ _ _ hmem
      cases hA : all_assigned (exact_pass (pyStrip (pyLower raw)) idx st) with
      | true => simpa [hA] using h1
      | false =>
        simp only [hA, Bool.false_eq_true, if_false]
        rw [fuzzy_pass_ssid_of_isSome _ _ _ (by rw [h1]; exact hs)]
        exact h1

theorem detect_loop_room_of_no_exact :
    ∀ (cells : List (Option String)) (st : DetectState) (idx r : Nat),
      st.room = some r → (∀ c ∈ cells, is_exact room_keywords c = false) →
      (detect_loop st idx cells).room = some r := by
  intro cells
  induction cells with
  | nil => intro st idx r h _; exact h
  | cons c rest ih =>
    intro st idx r h hall
    rw [detect_loop]
    refine ih _ _ _ ?_ (fun x hx => hall x (List.mem_cons_of_mem c hx))
    rw [process_cell_room_of_not_exact st idx c (by rw [h]; rfl)
      (hall c (List.mem_cons_self c rest))]
    exact h

theorem detect_loop_ssid_of_no_exact :
    ∀ (cells : List (Option String)) (st : DetectState) (idx s : Nat),
      st.ssid = some s → (∀ c ∈ cells, is_exact ssid_keywords c = false) →
      (detect_loop st idx cells).ssid = some s := by
  intro cells
  induction cells with
  | nil => intro st idx s h _; exact h
  | cons c rest ih =>
    intro st idx s h hall
    rw [detect_loop]
    refine ih _ _ _ ?_ (fun x hx => hall x (List.mem_cons_of_mem c hx))
    rw [process_cell_ssid_of_not_exact st idx c (by rw [h]; rfl)
      (hall c (List.mem_cons_self c rest))]
    exact h

theorem detect_loop_room_at :
    ∀ (cells : List (Option String)) (st : DetectState) (idx p : Nat) (c : Option String),
      cells[p]? = some c → is_exact room_keywords c = true →
      (∀ (k : Nat) (c' : Option String), p < k → cells[k]? = some c' →
        is_exact room_keywords c' = false) →
      (detect_loop st idx cells).room = some (idx + p) := by
  intro cells
  induction cells with
  | nil => intro st idx p c hp; simp at hp
  | cons c0 rest ih =>
    intro st idx p c hp hc hafter
    match p with
    | 0 =>
      rw [detect_loop]
      have hc0 : c0 = c := by simpa using hp
      have h1 : (process_cell st idx c0).room = some idx :=
        process_cell_room_of_exact _ _ _ (hc0 ▸ hc)
      have hrest : ∀ x ∈ rest, is_exact room_keywords x = false := by
        intro x hx
        obtain ⟨n, hlen, hn⟩ := List.mem_iff_getElem.mp hx
        exact hafter (n + 1) x (Nat.succ_pos n)
          (by simpa using (List.getElem?_eq_getElem hlen).trans (congrArg some hn))
      simpa using detect_loop_room_of_no_exact rest _ (idx + 1) idx h1 hrest
    | q + 1 =>
      rw [detect_loop]
      have hp' : rest[q]? = some c := by simpa using hp
      have hafter' : ∀ (k : Nat) (c' : Option String), q < k → rest[k]? = some c' →
          is_exact room_keywords c' = false := by
        intro k c' hlt hk
        exact hafter (k + 1) c' (Nat.succ_lt_succ hlt) (by simpa using hk)
      have := ih (process_cell st idx c0) (idx + 1) q c hp' hc hafter'
      rw [this]
      congr 1
      omega

theorem detect_loop_ssid_at :
    ∀ (cells : List (Option String)) (st : DetectState) (idx p : Nat) (c : Option String),
      cells[p]? = some c → is_exact ssid_keywords c = true →
      (∀ (k : Nat) (c' : Option String), p < k → cells[k]? = some c' →
        is_exact ssid_keywords c' = false) →
      (detect_loop st idx cells).ssid = some (idx + p) := by
  intro cells
  induction cells with
  | nil => intro st idx p c hp; simp at hp
  | cons c0 rest ih =>
    intro st idx p c hp hc hafter
    match p with
    | 0 =>
      rw [detect_loop]
      have hc0 : c0 = c := by simpa using hp
      have h1 : (process_cell st idx c0).ssid = some idx :=
        process_cell_ssid_of_exact _ _ _ (hc0 ▸ hc)
      have hrest : ∀ x ∈ rest, is_exact ssid_keywords x = false := by
        intro x hx
        obtain ⟨n, hlen, hn⟩ := List.mem_iff_getElem.mp hx
        exact hafter (n + 1) x (Nat.succ_pos n)
          (by simpa using (List.getElem?_eq_getElem hlen).trans (congrArg some hn))
      simpa using detect_loop_ssid_of_no_exact rest _ (idx + 1) idx h1 hrest
    | q + 1 =>
      rw [detect_loop]
      have hp' : rest[q]? = some c := by simpa using hp
      have hafter' : ∀ (k : Nat) (c' : Option String), q < k → rest[k]? = some c' →
          is_exact ssid_keywords c' = false := by
        intro k c' hlt hk
        exact hafter (k + 1) c' (Nat.succ_lt_succ hlt) (by simpa using hk)
      have := ih (process_cell st idx c0) (idx + 1) q c hp' hc hafter'
      rw [this]
      congr 1
      omega

/-- C1 (amended): within the exact-match pass of `_detect_columns`, a
later exact keyword match for a role overwrites an earlier assignment
(only substring-pass assignments respect first-assignment-wins), so the
final index per role is the last exact match.  Consequently, for any
header row in which exactly one cell is an exact (isolated) `room`
keyword token and exactly one cell is an exact `ssid` keyword token,
`_detect_columns` succeeds and assigns exactly those cells' indices to
the `room` and `ssid` roles, regardless of the order and contents of the
other columns. -/
theorem detect_columns_isolated_exact (header : List (Option String)) (i j : Nat)
    (ci cj : Option String)
    (hi : header[i]? = some ci) (hci : is_exact room_keywords ci = true)
    (hiu : ∀ (k : Nat) (c : Option String), header[k]? = some c →
      is_exact room_keywords c = true → k = i)
    (hj : header[j]? = some cj) (hcj : is_exact ssid_keywords cj = true)
    (hju : ∀ (k : Nat) (c : Option String), header[k]? = some c →
      is_exact ssid_keywords c = true → k = j) :
    (detect_columns header).map (fun m => m.room) = some i ∧
    (detect_columns header).map (fun m => m.ssid) = some j := by
  have hroom : (detect_loop ⟨none, none, none, none, none⟩ 0 header).room = some (0 + i) :=
    detect_loop_room_at header _ 0 i ci hi hci (fun k c' hlt hk => by
      cases h' : is_exact room_keywords c' with
      | false => rfl
      | true => exact absurd (hiu k c' hk h') (Nat.ne_of_gt hlt))
  have hssid : (detect_loop ⟨none, none, none, none, none⟩ 0 header).ssid = some (0 + j) :=
    detect_loop_ssid_at header _ 0 j cj hj hcj (fun k c' hlt hk => by
      cases h' : is_exact ssid_keywords c' with
      | false => rfl
      | true => exact absurd (hju k c' hk h') (Nat.ne_of_gt hlt))
  rw [Nat.zero_add] at hroom hssid
  constructor
  · simp [detect_columns, hroom, hssid]
  · simp [detect_columns, hroom, hssid]

/-- Witness for `detect_columns_isolated_exact` on the header row
`["Room", "SSID"]`. -/
theorem detect_columns_isolated_exact_witness :
    (detect_columns [some "Room", some "SSID"]).map (fun m => m.room) = some 0 ∧
    (detect_columns [some "Room", some "SSID"]).map (fun m => m.ssid) = some 1 :=
  detect_columns_isolated_exact [some "Room", some "SSID"] 0 1
    (some "Room") (some "SSID") rfl (by decide)
    (fun k c hk hc => by
      match k with
      | 0 => rfl
      | 1 =>
        rw [show ([some "Room", some "SSID"] : List (Option String))[1]?
          = some (some "SSID") from rfl] at hk
        cases hk
        exact absurd hc (by decide)
      | n + 2 =>
        rw [show ([some "Room", some "SSID"] : List (Option String))[n + 2]?
          = none from by simp] at hk
        cases hk)
    rfl (by decide)
    (fun k c hk hc => by
      match k with
      | 0 =>
        rw [show ([some "Room", some "SSID"] : List (Option String))[0]?
          = some (some "Room") from rfl] at hk
        cases hk
        exact absurd hc (by decide)
      | 1 => rfl
      | n + 2 =>
        rw [show ([some "Room", some "SSID"] : List (Option String))[n + 2]?
          = none from by simp] at hk
        cases hk)

/-! ## `src/vgQRGen/core/excel_manager.py`: row extraction -/

/-- Python `row[i]` on an `openpyxl` data row (rows are padded to the
sheet's column count; out-of-range access never happens in the program). -/
def cell_at (row : List (Option String)) (i : Nat) : Option String :=
  row.getD i none

/-- `str(row[c]).strip() if c is not None and row[c] else None` — the
per-field derivation used for the optional password / encryption /
property columns. -/
def opt_cell_str (row : List (Option String)) (colOpt : Option Nat) : Option String :=
  match colOpt with
  | none => none
  | some i => if truthy (cell_at row i) then some (pyStrip (pyStr (cell_at row i))) else none

/-- The `WiFiCredentials(...)` construction shared by `get_room_data` and
`get_all_rooms`: trimmed SSID text, optional password, optional
encryption (`None` when the column is absent or the cell is falsy — no
default is substituted), optional property. -/
def extract_cred (cols : ExcelColumns) (row : List (Option String)) : WiFiCredentials :=
  ⟨pyStrip (pyStr (cell_at row cols.ssid)),
   opt_cell_str row cols.password,
   opt_cell_str row cols.encryption,
   opt_cell_str row cols.property_type⟩

/-- The row-matching test of `get_room_data`:
`str(row[self.columns.room]).strip().upper() == room_number` (where the
key has already been normalized the same way). -/
def room_matches (cols : ExcelColumns) (key : String) (row : List (Option String)) : Bool :=
  pyUpper (pyStrip (pyStr (cell_at row cols.room))) == key

/-- `ExcelManager.get_room_data` of `src/vgQRGen/core/excel_manager.py`:
normalize the requested room key, return the credential built from the
first data row whose room cell matches, or `None` when no row matches.
(No check is made on the matched row's SSID cell.) -/
def get_room_data (cols : ExcelColumns) (rows : List (List (Option String)))
    (room_number : String) : Option WiFiCredentials :=
  (rows.find? (room_matches cols (pyUpper (pyStrip room_number)))).map (extract_cred cols)

/-- The skip test of `get_all_rooms`:
`not row[self.columns.room] or not row[self.columns.ssid]` skips the row,
so a row qualifies iff both cells are truthy. -/
def qualifies (cols : ExcelColumns) (row : List (Option String)) : Bool :=
  truthy (cell_at row cols.room) && truthy (cell_at row cols.ssid)

/-- `ExcelManager.get_all_rooms` of `src/vgQRGen/core/excel_manager.py`:
scan all data rows in order, skip rows with a falsy room or SSID cell,
and collect one credential per remaining row. -/
def get_all_rooms (cols : ExcelColumns) : List (List (Option String)) → List WiFiCredentials
  | [] => []
  | row :: rest =>
    if qualifies cols row then extract_cred cols row :: get_all_rooms cols rest
    else get_all_rooms cols rest

/-- The legacy `ExcelManager.get_room_data` of
`src/qr_generator/core/excel_manager.py` (lines 209–234): identical to
the vgQRGen version except that the encryption field falls back to the
literal `"WPA2"` when the encryption column is absent or its cell is
falsy. -/
def legacy_get_room_data (cols : ExcelColumns) (rows : List (List (Option String)))
    (room_number : String) : Option WiFiCredentials :=
  (rows.find? (room_matches cols (pyUpper (pyStrip room_number)))).map (fun row =>
    ⟨pyStrip (pyStr (cell_at row cols.ssid)),
     opt_cell_str row cols.password,
     some ((opt_cell_str row cols.encryption).getD "WPA2"),
     opt_cell_str row cols.property_type⟩)

/-- C2 counterexample: with `room` in column 0 and `ssid` in column 1,
a sheet whose only data row is `["101", ""]` (the SSID cell holds the
empty string) makes `get_room_data "101"` return a credential with an
empty `ssid` instead of `None` — the matched row's empty SSID is not
treated as "not found". -/
theorem get_room_data_empty_ssid_cex :
    get_room_data ⟨0, 1, none, none, none⟩ [[some "101", some ""]] "101"
        = some ⟨"", none, none, none⟩ ∧
      (⟨"", none, none, none⟩ : WiFiCredentials).ssid = "" := by
  constructor
  · decide
  · rfl

/-- C2 (amended): `get_room_data` returns `None` exactly when no data
row's room cell matches the normalized key; when it returns a
credential, that credential is built (by `extract_cred`) from some
matching row — unconditionally, with no empty-SSID check, so the
returned credential's `ssid` may be empty. -/
theorem get_room_data_not_found_spec (cols : ExcelColumns)
    (rows : List (List (Option String))) (key : String) :
    (get_room_data cols rows key = none ↔
      ∀ row ∈ rows, room_matches cols (pyUpper (pyStrip key)) row = false) ∧
    (∀ cred, get_room_data cols rows key = some cred →
      ∃ row ∈ rows, room_matches cols (pyUpper (pyStrip key)) row = true ∧
        cred = extract_cred cols row) := by
  constructor
  · rw [get_room_data, Option.map_eq_none', List.find?_eq_none]
    constructor
    · intro h row hrow
      simpa using h row hrow
    · intro h row hrow
      simp [h row hrow]
  · intro cred hcred
    rw [get_room_data] at hcred
    obtain ⟨row, hfind, hmap⟩ := Option.map_eq_some'.mp hcred
    exact ⟨row, List.mem_of_find?_eq_some hfind, List.find?_some hfind, hmap.symm⟩

/-- Witness for `get_room_data_not_found_spec` on an empty sheet. -/
theorem get_room_data_not_found_spec_witness :
    get_room_data ⟨0, 1, none, none, none⟩ [] "101" = none :=
  (get_room_data_not_found_spec ⟨0, 1, none, none, none⟩ [] "101").1.mpr
    (by intro row hrow; cases hrow)

theorem get_all_rooms_eq_filter_map (cols : ExcelColumns) :
    ∀ rows : List (List (Option String)),
      get_all_rooms cols rows = (rows.filter (qualifies cols)).map (extract_cred cols) := by
  intro rows
  induction rows with
  | nil => rfl
  | cons row rest ih =>
    cases hq : qualifies cols row with
    | true => simp [get_all_rooms, List.filter_cons, hq, ih]
    | false => simp [get_all_rooms, List.filter_cons, hq, ih]

/-- C8: `get_all_rooms` yields exactly one credential per data row whose
room and SSID cells are both truthy, built by the shared per-field
derivation, in physical row order (a filter of the rows followed by the
extraction map, hence the empty list — not an error — when no row
qualifies); in particular on the rows
`[("101","NetA"), ("","NetB"), ("103","")]` it yields exactly the one
credential of room "101". -/
theorem get_all_rooms_spec :
    (∀ (cols : ExcelColumns) (rows : List (List (Option String))),
      get_all_rooms cols rows = (rows.filter (qualifies cols)).map (extract_cred cols)) ∧
    get_all_rooms ⟨0, 1, none, none, none⟩
        [[some "101", some "NetA"], [some "", some "NetB"], [some "103", some ""]]
      = [⟨"NetA", none, none, none⟩] := by
  refine ⟨get_all_rooms_eq_filter_map, ?_⟩
  decide

theorem mem_get_all_rooms (cols : ExcelColumns) (rows : List (List (Option String)))
    (cred : WiFiCredentials) (h : cred ∈ get_all_rooms cols rows) :
    ∃ row ∈ rows, cred = extract_cred cols row := by
  rw [get_all_rooms_eq_filter_map] at h
  obtain ⟨row, hrow, heq⟩ := List.mem_map.mp h
  exact ⟨row, List.mem_of_mem_filter hrow, heq.symm⟩

theorem extract_cred_encryption (cols : ExcelColumns) (row : List (Option String)) :
    (extract_cred cols row).encryption = opt_cell_str row cols.encryption := rfl

/-- C4 counterexample: the legacy resolver of
`src/qr_generator/core/excel_manager.py` substitutes the default
`"WPA2"`: with no encryption column in the mapping at all, the returned
credential still carries `security = "WPA2"`. -/
theorem legacy_resolver_default_security_cex :
    legacy_get_room_data ⟨0, 1, none, none, none⟩ [[some "101", some "NetA"]] "101"
        = some ⟨"NetA", none, some "WPA2", none⟩ ∧
      (⟨0, 1, none, none, none⟩ : ExcelColumns).encryption = none := by
  constructor
  · decide
  · rfl

/-- C4 (amended): the canonical vgQRGen resolver never substitutes a
default security value — every credential returned by `get_room_data` or
yielded by `get_all_rooms` is built from some data row of the sheet, and
its `encryption` is `none` whenever the encryption column is absent from
the mapping or that row's own encryption cell is falsy (no matter what
other rows contain); the legacy `qr_generator` copy, by contrast,
substitutes `"WPA2"` in those cases (see the counterexample). -/
theorem resolver_security_absent_spec (cols : ExcelColumns)
    (rows : List (List (Option String))) (key : String) (cred : WiFiCredentials)
    (hsrc : get_room_data cols rows key = some cred ∨ cred ∈ get_all_rooms cols rows) :
    ∃ row ∈ rows, cred = extract_cred cols row ∧
      ((cols.encryption = none ∨ truthy (cell_at row (cols.encryption.getD 0)) = false) →
        cred.encryption = none) := by
  have hrow : ∃ row ∈ rows, cred = extract_cred cols row := by
    rcases hsrc with h | h
    · rw [get_room_data] at h
      obtain ⟨row, hfind, hmap⟩ := Option.map_eq_some'.mp h
      exact ⟨row, List.mem_of_find?_eq_some hfind, hmap.symm⟩
    · exact mem_get_all_rooms cols rows cred h
  obtain ⟨row, hmem, heq⟩ := hrow
  refine ⟨row, hmem, heq, ?_⟩
  intro hsec
  rw [heq, extract_cred_encryption]
  cases hcol : cols.encryption with
  | none => rfl
  | some i =>
    rcases hsec with h | h
    · rw [hcol] at h; cases h
    · rw [hcol] at h
      simp only [Option.getD_some] at h
      rw [opt_cell_str, h]
      simp

/-- Witness for `resolver_security_absent_spec`: a mixed sheet whose
matched row has an empty encryption cell while another row carries
`"WPA"`, resolved through `get_room_data` — the returned credential's
security is still absent. -/
theorem resolver_security_absent_spec_witness :
    ∃ row ∈ ([[some "101", some "NetA", none],
        [some "102", some "NetB", some "WPA"]] : List (List (Option String))),
      (⟨"NetA", none, none, none⟩ : WiFiCredentials)
          = extract_cred ⟨0, 1, none, some 2, none⟩ row ∧
      (((⟨0, 1, none, some 2, none⟩ : ExcelColumns).encryption = none ∨
          truthy (cell_at row
            ((⟨0, 1, none, some 2, none⟩ : ExcelColumns).encryption.getD 0)) = false) →
        (⟨"NetA", none, none, none⟩ : WiFiCredentials).encryption = none) :=
  resolver_security_absent_spec ⟨0, 1, none, some 2, none⟩
    [[some "101", some "NetA", none], [some "102", some "NetB", some "WPA"]]
    "101" ⟨"NetA", none, none, none⟩ (Or.inl (by decide))

/-! ## `src/vgQRGen/core/excel_manager.py`: `set_columns_manually` -/

/-- `ExcelManager.set_columns_manually`: the caller's dictionary is a
partial map from role names to indices (`d k = none` when the key is
absent).  `column_indices['room']` / `['ssid']` raise `KeyError` when
missing — caught and turned into failure — while the optional roles are
read with `.get` and default to `None`.  No distinctness or
sheet-bounds validation is performed. -/
def set_columns_manually (d : String → Option Nat) : Option ExcelColumns :=
  match d "room", d "ssid" with
  | some r, some s => some ⟨r, s, d "password", d "encryption", d "property_type"⟩
  | _, _ => none

/-- C5 counterexample: a manual mapping assigning the same index 7 to
both `room` and `ssid` is accepted, so the indices of an accepted
mapping are neither pairwise distinct nor checked against any sheet's
column bounds. -/
theorem set_columns_manually_duplicate_cex :
    set_columns_manually (fun k => if k == "room" || k == "ssid" then some 7 else none)
        = some ⟨7, 7, none, none, none⟩ ∧
      (⟨7, 7, none, none, none⟩ : ExcelColumns).room
        = (⟨7, 7, none, none, none⟩ : ExcelColumns).ssid := by
  constructor
  · decide
  · rfl

/-- C5 (amended): `set_columns_manually` fails exactly when `room` or
`ssid` is missing from the supplied mapping; on success the required
roles are taken from the input and the omitted optional roles default to
absent.  Mappings it accepts always carry `room` and `ssid`, but no
distinctness or sheet-bounds validation is performed (see the
counterexample). -/
theorem set_columns_manually_spec (d : String → Option Nat) :
    ((set_columns_manually d).isSome ↔ (d "room").isSome ∧ (d "ssid").isSome) ∧
    (∀ m, set_columns_manually d = some m →
      d "room" = some m.room ∧ d "ssid" = some m.ssid ∧
      m.password = d "password" ∧ m.encryption = d "encryption" ∧
      m.property_type = d "property_type") := by
  constructor
  · cases hr : d "room" <;> cases hs : d "ssid" <;>
      simp [set_columns_manually, hr, hs]
  · intro m hm
    cases hr : d "room" with
    | none => simp [set_columns_manually, hr] at hm
    | some r =>
      cases hs : d "ssid" with
      | none => simp [set_columns_manually, hr, hs] at hm
      | some s =>
        simp only [set_columns_manually, hr, hs, Option.some.injEq] at hm
        subst hm
        exact ⟨rfl, rfl, rfl, rfl, rfl⟩

/-- Witness for `set_columns_manually_spec` on a mapping supplying
`room` and `ssid`. -/
theorem set_columns_manually_spec_witness :
    (set_columns_manually (fun k => if k == "room" then some 0
      else if k == "ssid" then some 1 else none)).isSome :=
  (set_columns_manually_spec _).1.mpr (by constructor <;> decide)

/-! ## `src/vgQRGen/core/qr_manager.py`: `save_qr` canvas geometry -/

/-- `qr_area_height = int(1275 * 0.7)` (= 892). -/
def qr_area_height : Nat := (1275 * 7) / 10

/-- The geometry computed by `QRManager.save_qr`: canvas size, resized
image size and paste position.  Python float arithmetic on the
nonnegative pixel dimensions is modelled exactly, with `int()` as floor
division. -/
structure SaveQrLayout where
  canvas_w : Nat
  canvas_h : Nat
  new_w : Nat
  new_h : Nat
  x_pos : Nat
  y_pos : Nat
deriving DecidableEq

/-- The layout computation of `save_qr` for an input image of size
`w × h`: the canvas is `Image.new('RGB', (825, 1100), 'white')`; if the
image is proportionally wider than `825 / qr_area_height` it is scaled
to width 825, otherwise to height `qr_area_height`, preserving the
aspect ratio with `int()` truncation; the result is pasted at
`((825 - new_w) // 2, 50)`. -/
def save_qr_layout (w h : Nat) : SaveQrLayout :=
  if w * qr_area_height > 825 * h then
    ⟨825, 1100, 825, h * 825 / w, (825 - 825) / 2, 50⟩
  else
    ⟨825, 1100, w * qr_area_height / h, qr_area_height,
      (825 - w * qr_area_height / h) / 2, 50⟩

/-- C6: for every positive input size, `save_qr` draws on a canvas of
exactly 825 × 1100 pixels; the input is scaled proportionally (floor of
the exact proportional size), the scaled image fits inside the canvas,
it is horizontally centered, and it is anchored at the fixed top margin
of 50 pixels — so the persisted artifact always has the standardized
dimensions. -/
theorem save_qr_canvas_spec (w h : Nat) (hw : 0 < w) (hh : 0 < h) :
    (save_qr_layout w h).canvas_w = 825 ∧
    (save_qr_layout w h).canvas_h = 1100 ∧
    (save_qr_layout w h).y_pos = 50 ∧
    (save_qr_layout w h).x_pos = (825 - (save_qr_layout w h).new_w) / 2 ∧
    (save_qr_layout w h).new_w ≤ 825 ∧
    (save_qr_layout w h).y_pos + (save_qr_layout w h).new_h ≤ 1100 ∧
    (((save_qr_layout w h).new_w = 825 ∧ (save_qr_layout w h).new_h = h * 825 / w) ∨
      ((save_qr_layout w h).new_h = qr_area_height ∧
        (save_qr_layout w h).new_w = w * qr_area_height / h)) := by
  rw [save_qr_layout]
  split
  · rename_i hgt
    have hq : qr_area_height = 892 := rfl
    rw [hq] at hgt
    have hlt : h * 825 / w < 892 := by
      rw [Nat.div_lt_iff_lt_mul hw]
      calc h * 825 = 825 * h := Nat.mul_comm _ _
        _ < w * 892 := hgt
        _ = 892 * w := Nat.mul_comm _ _
    refine ⟨rfl, rfl, rfl, rfl, Nat.le_refl _, ?_, Or.inl ⟨rfl, rfl⟩⟩
    show 50 + h * 825 / w ≤ 1100
    omega
  · rename_i hle
    have hq : qr_area_height = 892 := rfl
    have hnw : w * qr_area_height / h ≤ 825 := by
      rw [hq]
      have h1 : w * 892 ≤ 825 * h := Nat.le_of_not_lt hle
      calc w * 892 / h ≤ 825 * h / h := Nat.div_le_div_right h1
        _ = 825 := Nat.mul_div_cancel 825 hh
    refine ⟨rfl, rfl, rfl, rfl, hnw, ?_, Or.inr ⟨rfl, rfl⟩⟩
    show 50 + qr_area_height ≤ 1100
    decide

/-- Witness for `save_qr_canvas_spec` at a 1000 × 1000 input (larger
than the canvas in both directions). -/
theorem save_qr_canvas_spec_witness :
    (save_qr_layout 1000 1000).canvas_w = 825 ∧
    (save_qr_layout 1000 1000).canvas_h = 1100 ∧
    (save_qr_layout 1000 1000).y_pos = 50 ∧
    (save_qr_layout 1000 1000).x_pos = (825 - (save_qr_layout 1000 1000).new_w) / 2 ∧
    (save_qr_layout 1000 1000).new_w ≤ 825 ∧
    (save_qr_layout 1000 1000).y_pos + (save_qr_layout 1000 1000).new_h ≤ 1100 ∧
    (((save_qr_layout 1000 1000).new_w = 825 ∧
        (save_qr_layout 1000 1000).new_h = 1000 * 825 / 1000) ∨
      ((save_qr_layout 1000 1000).new_h = qr_area_height ∧
        (save_qr_layout 1000 1000).new_w = 1000 * qr_area_height / 1000)) :=
  save_qr_canvas_spec 1000 1000 (by decide) (by decide)

/-! ## `src/vgQRGen/core/qr_manager.py`: `add_logo` -/

/-- The keys of `QRManager.LOGO_PATHS`. -/
def logo_path_keys : List String := ["VLEV", "VDPF"]

/-- `QRManager._normalize_property_type`: falsy input maps to `None`;
otherwise the text is upper-cased and stripped and resolved through the
fixed alias tables (`VLEV`/`VLE` → `VLEV`;
`VDPF`/`VG`/`VDP`/`FLAMINGOS`/`Flamingos` → `VDPF`;
`SIN LOGO`/`NONE`/`NO LOGO` → `None`); anything else maps to `None`. -/
def normalize_property_type : Option String → Option String
  | none => none
  | some s =>
    if s = "" then none
    else
      let p := pyStrip (pyUpper s)
      if p = "VLEV" ∨ p = "VLE" then some "VLEV"
      else if p = "VDPF" ∨ p = "VG" ∨ p = "VDP" ∨ p = "FLAMINGOS" ∨ p = "Flamingos" then
        some "VDPF"
      else if p = "SIN LOGO" ∨ p = "NONE" ∨ p = "NO LOGO" then none
      else none

/-- `QRManager.add_logo`, with the image type, the logo-compositing step
and the filesystem lookup abstracted as parameters: only the guard logic
is concrete.  The tag is normalized; if the result is `None`, is not a
`LOGO_PATHS` key, or its logo asset file does not exist, the input image
is returned unchanged; only otherwise is the composited image
returned. -/
def add_logo {Img : Type} (composite : Img → String → Img)
    (asset_exists : String → Bool) (img : Img) (property_type : Option String) : Img :=
  match normalize_property_type property_type with
  | none => img
  | some p =>
    if p ∈ logo_path_keys then
      if asset_exists p then composite img p else img
    else img

/-- C9: whenever the property tag does not normalize to a canonical code
whose logo asset exists (unrecognized tags, explicit no-logo markers,
falsy tags, or missing asset files), `add_logo` returns the input image
unchanged — for any image type and any compositing function. -/
theorem add_logo_unchanged_spec {Img : Type} (composite : Img → String → Img)
    (asset_exists : String → Bool) (img : Img) (property_type : Option String)
    (h : ∀ p, normalize_property_type property_type = some p → asset_exists p = false) :
    add_logo composite asset_exists img property_type = img := by
  rw [add_logo.eq_def]
  cases hn : normalize_property_type property_type with
  | none => rfl
  | some p =>
    simp only
    rw [h p hn]
    split <;> rfl

/-- Witness for `add_logo_unchanged_spec` at the unrecognized tag
`"NOT_A_REAL_TAG"` (the `Img` type instantiated with `Nat` and a
compositing function that would visibly change the image). -/
theorem add_logo_unchanged_spec_witness :
    add_logo (fun (n : Nat) (_ : String) => n + 1) (fun _ => true) 0
        (some "NOT_A_REAL_TAG") = 0 :=
  add_logo_unchanged_spec (fun (n : Nat) (_ : String) => n + 1) (fun _ => true) 0
    (some "NOT_A_REAL_TAG")
    (fun p hp => by
      rw [show normalize_property_type (some "NOT_A_REAL_TAG") = none by decide] at hp
      cases hp)

end VgQrGen
